import Mathlib

/-!
Shallow embedding of the rumdl Zed-extension binary-provisioning logic
(`src/lib.rs`, `impl Rumdl`).  Pure helper functions are translated as Lean
functions; the stateful installation flow is translated as explicit state
passing over a `Host` record (the host plugin API collaborators) together
with a trace of observable host effects (`Event`).  Rust `Result<T, String>`
becomes `Except String T`; `PathBuf` values, which in this code are always
built from valid UTF-8 strings, are modeled as `String` (so the
`to_str().ok_or(..)` conversion in `download_binary` always succeeds).
Rust `String` operations are modeled over the character list of the Lean
`String` so that they are kernel-reducible.
-/

set_option autoImplicit false

namespace RumdlExt

/-- `zed::Architecture` (host plugin API). -/
inductive Architecture where
  | Aarch64 | X86 | X8664
  deriving DecidableEq

/-- `Debug` formatting of `zed::Architecture`, as produced by `{arch:?}`. -/
def archDebug : Architecture → String
  | .Aarch64 => "Aarch64"
  | .X86 => "X86"
  | .X8664 => "X8664"

/-- `zed::Os` (host plugin API). -/
inductive Os where
  | Mac | Linux | Windows
  deriving DecidableEq

/-- `zed::GithubReleaseAsset`: one downloadable file of a release. -/
structure GithubReleaseAsset where
  name : String
  download_url : String
  deriving DecidableEq

/-- `zed::GithubRelease`: a released version with its asset list. -/
structure GithubRelease where
  version : String
  assets : List GithubReleaseAsset
  deriving DecidableEq

/-- `struct RumdlBinary { path, env }` from `src/lib.rs`. -/
structure RumdlBinary where
  path : String
  env : List (String × String)
  deriving DecidableEq

/-- `const NAME: &str = "rumdl"`. -/
def NAME : String := "rumdl"

/-- The constant `"rumdl-"` from `src/lib.rs` (the versioned-directory marker). -/
def NAME_PREFIX : String := "rumdl-"

/-- `const RUMDL_GITHUB_REPO: &str = "rvben/rumdl"`. -/
def RUMDL_GITHUB_REPO : String := "rvben/rumdl"

/-- Rust `str::contains(c: char)`, modeled on the character list. -/
def strContains (s : String) (c : Char) : Bool :=
  s.data.contains c

/-- Rust `str::ends_with(p: &str)`, modeled on the character list. -/
def strEndsWith (s p : String) : Bool :=
  p.data.isSuffixOf s.data

/-- Rust `str::starts_with(p: &str)`, modeled on the character list. -/
def strStartsWith (s p : String) : Bool :=
  p.data.isPrefixOf s.data

/-- `Result::err()` for `Except String`, used by
`find_release_asset_for_platform` to extract the gnu failure reason. -/
def errOf {α : Type} : Except String α → Option String
  | .error e => some e
  | .ok _ => none

/-- `Rumdl::arch_name` (`src/lib.rs:27-37`): maps the two supported
architectures to their names and rejects everything else with an error
naming the architecture (the `{arch:?}` debug form). -/
def arch_name (arch : Architecture) : Except String String :=
  if arch = Architecture.X8664 then .ok "x86_64"
  else if arch = Architecture.Aarch64 then .ok "aarch64"
  else .error ("Unsupported architecture: " ++ archDebug arch)

/-- `Rumdl::os_asset_info` (`src/lib.rs:39-49`): OS target triple and archive
file extension. -/
def os_asset_info (platform : Os) : String × String :=
  if platform = Os.Mac then ("apple-darwin", "tar.gz")
  else if platform = Os.Linux then ("unknown-linux-gnu", "tar.gz")
  else ("pc-windows-msvc", "zip")

/-- The suffix `format!("{arch_name}-{os_str}.{file_ext}")` matched against
asset names in `find_release_asset`. -/
def asset_suffix (arch_name os_str file_ext : String) : String :=
  arch_name ++ "-" ++ os_str ++ "." ++ file_ext

/-- The error text `format!("No compatible Rumdl binary found for
{arch_name}-{os_str}")` from `find_release_asset`. -/
def no_asset_error (arch_name os_str : String) : String :=
  "No compatible Rumdl binary found for " ++ arch_name ++ "-" ++ os_str

/-- `Rumdl::find_release_asset` (`src/lib.rs:51-70`): first asset whose name
ends with the computed suffix, else an error naming the arch/OS pair. -/
def find_release_asset (release : GithubRelease) (arch_name os_str file_ext : String) :
    Except String GithubReleaseAsset :=
  let asset_name := asset_suffix arch_name os_str file_ext
  match release.assets.find? (fun a => strEndsWith a.name asset_name) with
  | none => .error (no_asset_error arch_name os_str)
  | some asset => .ok asset

/-- `Rumdl::find_linux_musl_asset` (`src/lib.rs:72-80`): musl retry; on
failure combines the musl error with the earlier gnu error. -/
def find_linux_musl_asset (release : GithubRelease) (arch_name file_ext gnu_error : String) :
    Except String GithubReleaseAsset :=
  match find_release_asset release arch_name "unknown-linux-musl" file_ext with
  | .ok asset => .ok asset
  | .error musl_err => .error (musl_err ++ "; gnu attempt failed: " ++ gnu_error)

/-- `Rumdl::find_release_asset_for_platform` (`src/lib.rs:82-102`): gnu
attempt first; on Linux only, fall back to the musl triple, passing the gnu
failure reason (with the `unwrap_or_else` default from the source). -/
def find_release_asset_for_platform (release : GithubRelease) (arch_name : String)
    (platform : Os) : Except String GithubReleaseAsset :=
  let info := os_asset_info platform
  let gnu_asset := find_release_asset release arch_name info.1 info.2
  if platform ≠ Os.Linux then gnu_asset
  else
    match gnu_asset with
    | .ok asset => .ok asset
    | .error _ =>
      let gnu_error := (errOf gnu_asset).getD "unknown linux gnu asset failure"
      find_linux_musl_asset release arch_name info.2 gnu_error

/-- `Rumdl::build_versioned_binary_path` (`src/lib.rs:104-124`): reject
separator characters in the version, then build `rumdl-{version}` and the
binary path inside it.  `PathBuf::set_extension("exe")` appends `.exe`
here because the file name is the constant `NAME`, which contains no dot. -/
def build_versioned_binary_path (release_version : String) (platform : Os) :
    Except String (String × String) :=
  if strContains release_version '/' then
    .error "Invalid release version: contains '/'"
  else if strContains release_version '\\' then
    .error "Invalid release version: contains '\\\\'"
  else
    let version_dir := NAME ++ "-" ++ release_version
    let binary_path := version_dir ++ "/" ++ NAME
    if platform = Os.Windows then .ok (version_dir, binary_path ++ ".exe")
    else .ok (version_dir, binary_path)

/-- `zed::LanguageServerInstallationStatus` values used by the code. -/
inductive Status where
  | checkingForUpdate | downloading
  deriving DecidableEq

/-- `zed::DownloadedFileType` values used by the code. -/
inductive FileType where
  | zip | gzipTar
  deriving DecidableEq

/-- Observable calls into the host plugin API, recorded as a trace. -/
inductive Event where
  | setStatus (s : Status)
  | downloadFile (url : String) (dest : String) (ft : FileType)
  | makeFileExecutable (path : String)
  | removeDirAll (path : String)
  deriving DecidableEq

/-- The host-environment collaborators of one resolution call: results of
`worktree.which` / `worktree.shell_env`, the release index, the current
platform pair, filesystem existence, the outcomes of `zed::download_file`
and `zed::make_file_executable`, the entries of `fs::read_dir(".")` (`none`
models an `Err`; an entry `none` models an iterator error or a name that is
not valid UTF-8, both skipped by the source), and the per-path outcome of
`fs::remove_dir_all` (whose `Result` the source discards with `.ok()`). -/
structure Host where
  whichResult : Option String
  shellEnv : List (String × String)
  latestRelease : Except String GithubRelease
  platform : Os
  arch : Architecture
  pathExists : String → Bool
  downloadResult : Except String Unit
  makeExecResult : Except String Unit
  dirEntries : Option (List (Option String))
  removeDirOk : String → Bool

/-- `Rumdl::download_binary` (`src/lib.rs:126-151`): report `Downloading`,
fetch the archive (zip on Windows, gzip-tar otherwise), then mark the binary
executable.  Paths are strings in this model, so the
`to_str().ok_or("Invalid binary path")` step always succeeds. -/
def download_binary (host : Host) (version_dir binary_path : String)
    (asset : GithubReleaseAsset) : Except String Unit × List Event :=
  let ev := [Event.setStatus Status.downloading]
  let file_type := if host.platform = Os.Windows then FileType.zip else FileType.gzipTar
  let ev := ev ++ [Event.downloadFile asset.download_url version_dir file_type]
  match host.downloadResult with
  | .error e => (.error ("Failed to download Rumdl binary: " ++ e), ev)
  | .ok _ =>
    let ev := ev ++ [Event.makeFileExecutable binary_path]
    match host.makeExecResult with
    | .error e => (.error ("Failed to make binary executable: " ++ e), ev)
    | .ok _ => (.ok (), ev)

/-- `Rumdl::download_binary_or_cleanup` (`src/lib.rs:153-174`): on download
failure, best-effort `fs::remove_dir_all(version_dir).ok()` (its result is
discarded) and propagate the original failure. -/
def download_binary_or_cleanup (host : Host) (version_dir binary_path : String)
    (asset : GithubReleaseAsset) : Except String Unit × List Event :=
  let r := download_binary host version_dir binary_path asset
  match r.1 with
  | .ok _ => r
  | .error e =>
    let _ := host.removeDirOk version_dir
    (.error e, r.2 ++ [Event.removeDirAll version_dir])

/-- `Rumdl::cleanup_other_versions` (`src/lib.rs:176-196`): scan
`fs::read_dir(".")`; skip unreadable entries, the current version directory,
and names without the `rumdl-` marker; attempt `fs::remove_dir_all` on the
rest (`entry.path()` is `./{name}` for `read_dir(".")`), discarding each
removal result with `.ok()`. -/
def cleanup_other_versions (host : Host) (current_version_dir : String) : List Event :=
  match host.dirEntries with
  | none => []
  | some entries =>
    entries.filterMap fun entry =>
      match entry with
      | none => none
      | some name =>
        if name = current_version_dir then none
        else if ! strStartsWith name NAME_PREFIX then none
        else
          let _ := host.removeDirOk ("./" ++ name)
          some (Event.removeDirAll ("./" ++ name))

/-- `Rumdl::install_binary` (`src/lib.rs:222-268`): report
`CheckingForUpdate`, fetch the latest release, select the asset, build the
versioned path; if the binary already exists return it, else download (with
partial-install cleanup), prune other versions, cache and return.  The
second component is the trace of host effects, the third the updated
`binary_cache`. -/
def install_binary (host : Host) (cache : Option String) :
    Except String RumdlBinary × List Event × Option String :=
  let ev := [Event.setStatus Status.checkingForUpdate]
  match host.latestRelease with
  | .error e => (.error ("Failed to fetch latest release: " ++ e), ev, cache)
  | .ok release =>
    match arch_name host.arch with
    | .error e => (.error e, ev, cache)
    | .ok archName =>
      match find_release_asset_for_platform release archName host.platform with
      | .error e => (.error e, ev, cache)
      | .ok asset =>
        match build_versioned_binary_path release.version host.platform with
        | .error e => (.error e, ev, cache)
        | .ok vp =>
          if host.pathExists vp.2 then
            (.ok ⟨vp.2, []⟩, ev, some vp.2)
          else
            let dl := download_binary_or_cleanup host vp.1 vp.2 asset
            match dl.1 with
            | .error e => (.error e, ev ++ dl.2, cache)
            | .ok _ =>
              let cl := cleanup_other_versions host vp.1
              (.ok ⟨vp.2, []⟩, ev ++ dl.2 ++ cl, some vp.2)

/-- `Rumdl::get_binary` (`src/lib.rs:198-220`): `worktree.which` first (with
the worktree shell environment), then the cached path re-checked on disk
(with an empty environment), else `install_binary`. -/
def get_binary (host : Host) (cache : Option String) :
    Except String RumdlBinary × List Event × Option String :=
  match host.whichResult with
  | some path => (.ok ⟨path, host.shellEnv⟩, [], cache)
  | none =>
    match cache with
    | some path =>
      if host.pathExists path then (.ok ⟨path, []⟩, [], cache)
      else install_binary host cache
    | none => install_binary host cache

/-- Concrete fixture: a Linux/x86-64 host whose release `1.2.3` carries the
glibc asset and whose versioned binary already exists on disk. -/
def hostFast : Host where
  whichResult := none
  shellEnv := []
  latestRelease := .ok ⟨"1.2.3", [⟨"rumdl-x86_64-unknown-linux-gnu.tar.gz", "url"⟩]⟩
  platform := Os.Linux
  arch := Architecture.X8664
  pathExists := fun _ => true
  downloadResult := .ok ()
  makeExecResult := .ok ()
  dirEntries := none
  removeDirOk := fun _ => true

/-- Concrete fixture: a host whose working directory holds a stale version
directory, the current one, an unrelated entry, and an unreadable entry. -/
def hostDirs : Host :=
  { hostFast with dirEntries := some [some "rumdl-0.9", some "rumdl-1.2.3", some "other", none] }

/-- Concrete fixture: a host on whose command search path `rumdl` resolves. -/
def hostWhich : Host :=
  { hostFast with whichResult := some "/usr/local/bin/rumdl",
                  shellEnv := [("PATH", "/usr/local/bin")] }

/-! ### Helper lemmas -/

/-- A successful `List.find?` returns the first element satisfying the test:
the list splits around the result, with every earlier element failing it. -/
theorem find?_eq_some_split {α : Type} (p : α → Bool) (l : List α) (a : α)
    (h : l.find? p = some a) :
    ∃ l1 l2, l = l1 ++ a :: l2 ∧ (∀ x ∈ l1, p x = false) ∧ p a = true := by
  induction l with
  | nil => simp [List.find?] at h
  | cons b t ih =>
    by_cases hb : p b = true
    · rw [List.find?_cons_of_pos _ hb] at h
      obtain rfl : b = a := by injection h
      exact ⟨[], t, rfl, by simp, hb⟩
    · rw [List.find?_cons_of_neg _ hb] at h
      obtain ⟨l1, l2, rfl, h1, h2⟩ := ih h
      refine ⟨b :: l1, l2, rfl, ?_, h2⟩
      intro x hx
      rcases List.mem_cons.mp hx with rfl | hx
      · exact Bool.eq_false_iff.mpr hb
      · exact h1 x hx

/-- Prepending `./` to a file name is injective. -/
theorem dotSlash_inj (a b : String) (h : "./" ++ a = "./" ++ b) : a = b := by
  have h2 := congrArg String.data h
  simp only [String.data_append] at h2
  exact String.ext (List.append_cancel_left h2)

/-- An actual gnu-attempt failure message can never coincide with the
hard-coded `unwrap_or_else` fallback text of
`find_release_asset_for_platform`. -/
theorem no_asset_error_ne_default (a os : String) :
    no_asset_error a os ≠ "unknown linux gnu asset failure" := by
  intro h
  have h2 := congrArg String.data h
  simp only [no_asset_error, String.data_append, List.cons_append, List.nil_append] at h2
  simp at h2

/-! ### Claims -/

/-- Claim C6: `arch_name` maps the 64-bit x86 variant to `"x86_64"` and the
64-bit ARM variant to `"aarch64"`, and every other architecture to an
unsupported-architecture error whose text names that architecture. -/
theorem arch_name_cases (a : Architecture) :
    (a = Architecture.X8664 → arch_name a = .ok "x86_64") ∧
    (a = Architecture.Aarch64 → arch_name a = .ok "aarch64") ∧
    (a ≠ Architecture.X8664 → a ≠ Architecture.Aarch64 →
      arch_name a = .error ("Unsupported architecture: " ++ archDebug a)) := by
  refine ⟨fun h => ?_, fun h => ?_, fun h1 h2 => ?_⟩
  · subst h; rfl
  · subst h; rfl
  · cases a with
    | X86 => rfl
    | Aarch64 => exact absurd rfl h2
    | X8664 => exact absurd rfl h1

/-- Witness for C6: the 32-bit x86 architecture is rejected with an error
naming it. -/
theorem arch_name_cases_witness :
    arch_name Architecture.X86 =
      .error ("Unsupported architecture: " ++ archDebug Architecture.X86) :=
  (arch_name_cases Architecture.X86).2.2 (by decide) (by decide)

/-- Claim C7: `find_release_asset` selects the first asset in list order whose
name ends with the suffix `{arch}-{osTriple}.{ext}`; on the concrete
Linux/x86-64 example with the single glibc asset, that entry is selected; and
when no asset name ends with the suffix it fails with an error naming the
arch/OS combination. -/
theorem find_release_asset_first_match (release : GithubRelease) (arch os ext : String) :
    (∀ a, find_release_asset release arch os ext = .ok a →
      strEndsWith a.name (asset_suffix arch os ext) = true ∧
      ∃ l1 l2, release.assets = l1 ++ a :: l2 ∧
        ∀ x ∈ l1, strEndsWith x.name (asset_suffix arch os ext) = false) ∧
    ((∀ x ∈ release.assets, strEndsWith x.name (asset_suffix arch os ext) = false) →
      find_release_asset release arch os ext = .error (no_asset_error arch os)) ∧
    find_release_asset ⟨"1.2.3", [⟨"rumdl-x86_64-unknown-linux-gnu.tar.gz", "url"⟩]⟩
      "x86_64" "unknown-linux-gnu" "tar.gz" =
      .ok ⟨"rumdl-x86_64-unknown-linux-gnu.tar.gz", "url"⟩ := by
  refine ⟨?_, ?_, rfl⟩
  · intro a h
    simp only [find_release_asset] at h
    cases hf : release.assets.find? (fun x => strEndsWith x.name (asset_suffix arch os ext)) with
    | none => rw [hf] at h; cases h
    | some b =>
      rw [hf] at h
      obtain rfl : b = a := by injection h
      obtain ⟨l1, l2, heq, h1, h2⟩ := find?_eq_some_split _ _ _ hf
      exact ⟨h2, l1, l2, heq, h1⟩
  · intro hall
    simp only [find_release_asset]
    rw [List.find?_eq_none.mpr (fun x hx => by simp [hall x hx])]

/-- Witness for C7: a release with no assets yields the arch/OS-naming
error. -/
theorem find_release_asset_first_match_witness :
    find_release_asset ⟨"1.0", []⟩ "x86_64" "unknown-linux-gnu" "tar.gz" =
      .error (no_asset_error "x86_64" "unknown-linux-gnu") :=
  (find_release_asset_first_match ⟨"1.0", []⟩ "x86_64" "unknown-linux-gnu" "tar.gz").2.1
    (by simp)

/-- Claim C8: for a version containing neither separator,
`build_versioned_binary_path` returns the directory `rumdl-{version}` and the
binary path inside it, with `.exe` appended exactly on Windows. -/
theorem build_versioned_binary_path_ok (v : String) (os : Os)
    (h1 : strContains v '/' = false) (h2 : strContains v '\\' = false) :
    build_versioned_binary_path v os =
      .ok (NAME ++ "-" ++ v,
        NAME ++ "-" ++ v ++ "/" ++ NAME ++ if os = Os.Windows then ".exe" else "") := by
  by_cases hw : os = Os.Windows <;>
    simp [build_versioned_binary_path, h1, h2, hw, String.append_empty]

/-- Witness for C8: version `1.2.3` on Linux and on Windows. -/
theorem build_versioned_binary_path_ok_witness :
    build_versioned_binary_path "1.2.3" Os.Linux = .ok ("rumdl-1.2.3", "rumdl-1.2.3/rumdl") ∧
    build_versioned_binary_path "1.2.3" Os.Windows =
      .ok ("rumdl-1.2.3", "rumdl-1.2.3/rumdl.exe") := by
  constructor
  · have h := build_versioned_binary_path_ok "1.2.3" Os.Linux (by decide) (by decide)
    rw [h]; rfl
  · have h := build_versioned_binary_path_ok "1.2.3" Os.Windows (by decide) (by decide)
    rw [h]; rfl

/-- Claim C5: a version containing `/` or `\` makes
`build_versioned_binary_path` fail with one of its two descriptive
invalid-version errors, and an installation run seeing such a release version
errors out with no host effect beyond the initial checking-for-update status
report (no download, no extraction, no removal) and an unchanged cache. -/
theorem build_versioned_binary_path_rejects_separators (v : String) (os : Os)
    (h : strContains v '/' = true ∨ strContains v '\\' = true) :
    (build_versioned_binary_path v os = .error "Invalid release version: contains '/'" ∨
      build_versioned_binary_path v os = .error "Invalid release version: contains '\\\\'") ∧
    ∀ (host : Host) (cache : Option String) (release : GithubRelease),
      host.latestRelease = .ok release → release.version = v →
      (∃ e, (install_binary host cache).1 = .error e) ∧
      (install_binary host cache).2.1 = [Event.setStatus Status.checkingForUpdate] ∧
      (install_binary host cache).2.2 = cache := by
  have hbuild : ∀ os2 : Os,
      build_versioned_binary_path v os2 = .error "Invalid release version: contains '/'" ∨
      build_versioned_binary_path v os2 = .error "Invalid release version: contains '\\\\'" := by
    intro os2
    by_cases hs : strContains v '/' = true
    · left; simp [build_versioned_binary_path, hs]
    · right
      have hb : strContains v '\\' = true := h.resolve_left hs
      simp [build_versioned_binary_path, hs, hb]
  refine ⟨hbuild os, ?_⟩
  intro host cache release hr hv
  cases ha : arch_name host.arch with
  | error e => simp [install_binary, hr, ha]
  | ok archName =>
    cases hfa : find_release_asset_for_platform release archName host.platform with
    | error e => simp [install_binary, hr, ha, hfa]
    | ok asset =>
      rcases hbuild host.platform with hb | hb <;>
        simp [install_binary, hr, ha, hfa, hv, hb]

/-- Witness for C5: version `../evil` is rejected with a descriptive error. -/
theorem build_versioned_binary_path_rejects_separators_witness :
    strContains "../evil" '/' = true ∧
    (build_versioned_binary_path "../evil" Os.Linux =
        .error "Invalid release version: contains '/'" ∨
      build_versioned_binary_path "../evil" Os.Linux =
        .error "Invalid release version: contains '\\\\'") :=
  ⟨by decide,
    (build_versioned_binary_path_rejects_separators "../evil" Os.Linux (Or.inl (by decide))).1⟩

/-- Claim C1: on Linux, when no asset name ends with the glibc suffix but the
asset list's first musl-suffixed asset is `a`, platform asset selection
succeeds with `a`. -/
theorem linux_musl_fallback (release : GithubRelease) (archName : String)
    (a : GithubReleaseAsset)
    (hgnu : ∀ x ∈ release.assets,
      strEndsWith x.name (asset_suffix archName "unknown-linux-gnu" "tar.gz") = false)
    (hmusl : release.assets.find?
        (fun x => strEndsWith x.name (asset_suffix archName "unknown-linux-musl" "tar.gz")) =
      some a) :
    find_release_asset_for_platform release archName Os.Linux = .ok a := by
  have hg : release.assets.find?
      (fun x => strEndsWith x.name (asset_suffix archName "unknown-linux-gnu" "tar.gz")) =
      none :=
    List.find?_eq_none.mpr (fun x hx => by simp [hgnu x hx])
  simp [find_release_asset_for_platform, find_release_asset, find_linux_musl_asset,
    os_asset_info, errOf, hg, hmusl]

/-- Witness for C1: a release holding only the musl asset resolves to it. -/
theorem linux_musl_fallback_witness :
    find_release_asset_for_platform
      ⟨"1.2.3", [⟨"rumdl-x86_64-unknown-linux-musl.tar.gz", "url"⟩]⟩ "x86_64" Os.Linux =
      .ok ⟨"rumdl-x86_64-unknown-linux-musl.tar.gz", "url"⟩ :=
  linux_musl_fallback _ _ _ (by decide) (by decide)

/-- Claim C2: on Linux, when neither a glibc-suffixed nor a musl-suffixed
asset exists, platform asset selection fails, and the error text is the musl
failure reason followed by the gnu failure reason (so it contains both). -/
theorem linux_both_fail_combined_error (release : GithubRelease) (archName : String)
    (hgnu : ∀ x ∈ release.assets,
      strEndsWith x.name (asset_suffix archName "unknown-linux-gnu" "tar.gz") = false)
    (hmusl : ∀ x ∈ release.assets,
      strEndsWith x.name (asset_suffix archName "unknown-linux-musl" "tar.gz") = false) :
    find_release_asset_for_platform release archName Os.Linux =
      .error (no_asset_error archName "unknown-linux-musl" ++ "; gnu attempt failed: " ++
        no_asset_error archName "unknown-linux-gnu") ∧
    (∃ s, no_asset_error archName "unknown-linux-musl" ++ "; gnu attempt failed: " ++
        no_asset_error archName "unknown-linux-gnu" =
      no_asset_error archName "unknown-linux-musl" ++ s) ∧
    ∃ s, no_asset_error archName "unknown-linux-musl" ++ "; gnu attempt failed: " ++
        no_asset_error archName "unknown-linux-gnu" =
      s ++ no_asset_error archName "unknown-linux-gnu" := by
  have hg : release.assets.find?
      (fun x => strEndsWith x.name (asset_suffix archName "unknown-linux-gnu" "tar.gz")) =
      none :=
    List.find?_eq_none.mpr (fun x hx => by simp [hgnu x hx])
  have hm : release.assets.find?
      (fun x => strEndsWith x.name (asset_suffix archName "unknown-linux-musl" "tar.gz")) =
      none :=
    List.find?_eq_none.mpr (fun x hx => by simp [hmusl x hx])
  refine ⟨?_, ⟨"; gnu attempt failed: " ++ no_asset_error archName "unknown-linux-gnu",
      String.append_assoc _ _ _⟩,
    ⟨no_asset_error archName "unknown-linux-musl" ++ "; gnu attempt failed: ", rfl⟩⟩
  simp [find_release_asset_for_platform, find_release_asset, find_linux_musl_asset,
    os_asset_info, errOf, hg, hm]

/-- Witness for C2: a Linux release with no assets at all reports the
combined two-reason error. -/
theorem linux_both_fail_combined_error_witness :
    find_release_asset_for_platform ⟨"9.9", []⟩ "x86_64" Os.Linux =
      .error (no_asset_error "x86_64" "unknown-linux-musl" ++ "; gnu attempt failed: " ++
        no_asset_error "x86_64" "unknown-linux-gnu") :=
  (linux_both_fail_combined_error ⟨"9.9", []⟩ "x86_64" (by simp) (by simp)).1

/-- Claim C10: whenever the Linux musl fallback branch runs (the gnu attempt
was not `Ok`), the gnu attempt is an `Err` carrying a message, that message
is what `unwrap_or_else` yields (the hard-coded default is unreachable and
distinct from it), and the fallback is invoked with that actual reason. -/
theorem gnu_default_unreachable (release : GithubRelease) (archName : String)
    (h : (find_release_asset release archName "unknown-linux-gnu" "tar.gz").isOk = false) :
    ∃ e, errOf (find_release_asset release archName "unknown-linux-gnu" "tar.gz") = some e ∧
      (errOf (find_release_asset release archName "unknown-linux-gnu" "tar.gz")).getD
        "unknown linux gnu asset failure" = e ∧
      e ≠ "unknown linux gnu asset failure" ∧
      find_release_asset_for_platform release archName Os.Linux =
        find_linux_musl_asset release archName "tar.gz" e := by
  cases hf : release.assets.find?
      (fun x => strEndsWith x.name (asset_suffix archName "unknown-linux-gnu" "tar.gz")) with
  | some b =>
    exfalso
    simp [find_release_asset, hf, Except.isOk, Except.toBool] at h
  | none =>
    refine ⟨no_asset_error archName "unknown-linux-gnu", ?_, ?_,
      no_asset_error_ne_default _ _, ?_⟩
    · simp [find_release_asset, errOf, hf]
    · simp [find_release_asset, errOf, hf]
    · simp [find_release_asset_for_platform, find_release_asset, os_asset_info, errOf, hf]

/-- Witness for C10: a release with no assets fails the gnu attempt, and the
fallback receives the actual gnu failure message. -/
theorem gnu_default_unreachable_witness :
    ∃ e, errOf (find_release_asset ⟨"1.0", []⟩ "x86_64" "unknown-linux-gnu" "tar.gz") =
        some e ∧
      (errOf (find_release_asset ⟨"1.0", []⟩ "x86_64" "unknown-linux-gnu" "tar.gz")).getD
        "unknown linux gnu asset failure" = e ∧
      e ≠ "unknown linux gnu asset failure" ∧
      find_release_asset_for_platform ⟨"1.0", []⟩ "x86_64" Os.Linux =
        find_linux_musl_asset ⟨"1.0", []⟩ "x86_64" "tar.gz" e :=
  gnu_default_unreachable ⟨"1.0", []⟩ "x86_64" (by decide)

/-- Claim C3: when the versioned binary path computed for the fetched release
already exists on disk, `install_binary` returns it at once: the only host
effect is the initial checking-for-update status report, so no download call
and no downloading status transition occur, and the path is cached. -/
theorem install_binary_fast_path (host : Host) (cache : Option String)
    (release : GithubRelease) (archName : String) (asset : GithubReleaseAsset)
    (vd bp : String)
    (h1 : host.latestRelease = .ok release)
    (h2 : arch_name host.arch = .ok archName)
    (h3 : find_release_asset_for_platform release archName host.platform = .ok asset)
    (h4 : build_versioned_binary_path release.version host.platform = .ok (vd, bp))
    (h5 : host.pathExists bp = true) :
    install_binary host cache =
      (.ok ⟨bp, []⟩, [Event.setStatus Status.checkingForUpdate], some bp) ∧
    (∀ u d ft, Event.downloadFile u d ft ∉ (install_binary host cache).2.1) ∧
    Event.setStatus Status.downloading ∉ (install_binary host cache).2.1 := by
  have hmain : install_binary host cache =
      (.ok ⟨bp, []⟩, [Event.setStatus Status.checkingForUpdate], some bp) := by
    simp [install_binary, h1, h2, h3, h4, h5]
  refine ⟨hmain, ?_, ?_⟩
  · intro u d ft
    simp [hmain]
  · simp [hmain]

/-- Witness for C3: on `hostFast` the binary for release `1.2.3` is already
on disk and is returned with no download. -/
theorem install_binary_fast_path_witness :
    install_binary hostFast none =
      (.ok ⟨"rumdl-1.2.3/rumdl", []⟩, [Event.setStatus Status.checkingForUpdate],
        some "rumdl-1.2.3/rumdl") :=
  (install_binary_fast_path hostFast none
    ⟨"1.2.3", [⟨"rumdl-x86_64-unknown-linux-gnu.tar.gz", "url"⟩]⟩ "x86_64"
    ⟨"rumdl-x86_64-unknown-linux-gnu.tar.gz", "url"⟩ "rumdl-1.2.3" "rumdl-1.2.3/rumdl"
    rfl rfl rfl rfl rfl).1

/-- Claim C4: with a readable working directory, `cleanup_other_versions`
attempts removal exactly of the named entries that carry the `rumdl-` marker
and differ from the current version directory; the current directory and
entries without the marker are untouched; only removals are emitted; and the
scan depends only on the directory listing, so an individual removal failure
is ignored and aborts nothing (the function returns no error by type). -/
theorem cleanup_other_versions_spec (host : Host) (current : String)
    (es : List (Option String)) (h : host.dirEntries = some es) :
    (∀ name : String,
      Event.removeDirAll ("./" ++ name) ∈ cleanup_other_versions host current ↔
        some name ∈ es ∧ name ≠ current ∧ strStartsWith name NAME_PREFIX = true) ∧
    Event.removeDirAll ("./" ++ current) ∉ cleanup_other_versions host current ∧
    (∀ e ∈ cleanup_other_versions host current,
      ∃ n, e = Event.removeDirAll ("./" ++ n) ∧ n ≠ current ∧
        strStartsWith n NAME_PREFIX = true) ∧
    ∀ host2 : Host, host2.dirEntries = host.dirEntries →
      cleanup_other_versions host2 current = cleanup_other_versions host current := by
  have hmem : ∀ name : String,
      Event.removeDirAll ("./" ++ name) ∈ cleanup_other_versions host current ↔
        some name ∈ es ∧ name ≠ current ∧ strStartsWith name NAME_PREFIX = true := by
    intro name
    simp only [cleanup_other_versions, h]
    rw [List.mem_filterMap]
    constructor
    · rintro ⟨entry, hin, hfe⟩
      cases entry with
      | none => simp at hfe
      | some n =>
        by_cases hc : n = current
        · simp [hc] at hfe
        · by_cases hs : strStartsWith n NAME_PREFIX = true
          · simp [hc, hs] at hfe
            obtain rfl : n = name := dotSlash_inj _ _ hfe
            exact ⟨hin, hc, hs⟩
          · simp [hc, hs] at hfe
    · rintro ⟨hin, hc, hs⟩
      exact ⟨some name, hin, by simp [hc, hs]⟩
  refine ⟨hmem, ?_, ?_, ?_⟩
  · intro hmem2
    exact absurd ((hmem current).mp hmem2).2.1 (by simp)
  · intro e he
    simp only [cleanup_other_versions, h] at he
    rw [List.mem_filterMap] at he
    obtain ⟨entry, hin, hfe⟩ := he
    cases entry with
    | none => simp at hfe
    | some n =>
      by_cases hc : n = current
      · simp [hc] at hfe
      · by_cases hs : strStartsWith n NAME_PREFIX = true
        · simp [hc, hs] at hfe
          exact ⟨n, hfe.symm, hc, hs⟩
        · simp [hc, hs] at hfe
  · intro host2 h2
    simp only [cleanup_other_versions, h2, h]

/-- Witness for C4: in `hostDirs` with current directory `rumdl-1.2.3`, the
stale `rumdl-0.9` is removed while the current directory is kept. -/
theorem cleanup_other_versions_spec_witness :
    Event.removeDirAll "./rumdl-0.9" ∈ cleanup_other_versions hostDirs "rumdl-1.2.3" ∧
    Event.removeDirAll "./rumdl-1.2.3" ∉ cleanup_other_versions hostDirs "rumdl-1.2.3" := by
  have hspec := cleanup_other_versions_spec hostDirs "rumdl-1.2.3"
    [some "rumdl-0.9", some "rumdl-1.2.3", some "other", none] rfl
  exact ⟨(hspec.1 "rumdl-0.9").mpr ⟨by decide, by decide, by decide⟩, hspec.2.1⟩

/-- Claim C9: when the host command-path lookup resolves `rumdl`,
`get_binary` returns that path paired with the project's shell environment,
with no host effect and no cache change (so `install_binary` is never
invoked); a cache hit returns its path with an empty environment; and any
successful `install_binary` result also carries an empty environment. -/
theorem get_binary_spec (host : Host) (cache : Option String) :
    (∀ p, host.whichResult = some p →
      get_binary host cache = (.ok ⟨p, host.shellEnv⟩, [], cache)) ∧
    (∀ p, host.whichResult = none → cache = some p → host.pathExists p = true →
      get_binary host cache = (.ok ⟨p, []⟩, [], cache)) ∧
    ∀ b tr c, install_binary host cache = (.ok b, tr, c) → b.env = [] := by
  refine ⟨?_, ?_, ?_⟩
  · intro p hp
    simp [get_binary, hp]
  · intro p hw hc hpe
    subst hc
    simp [get_binary, hw, hpe]
  · intro b tr c hi
    simp only [install_binary] at hi
    repeat' split at hi
    all_goals simp_all
    all_goals exact (congrArg RumdlBinary.env (Prod.mk.injEq .. ▸ hi).1.symm ▸ rfl)

/-- Witness for C9: on `hostWhich` the locally resolved path is returned with
the worktree's shell environment and nothing else happens. -/
theorem get_binary_spec_witness :
    get_binary hostWhich none =
      (.ok ⟨"/usr/local/bin/rumdl", [("PATH", "/usr/local/bin")]⟩, [], none) :=
  (get_binary_spec hostWhich none).1 "/usr/local/bin/rumdl" rfl

end RumdlExt
